import Mathlib

/-!
Verification of the `LocalWorkers` pool
(`vendor/github.com/mongodb/amboy/pool/local.go`).

The Go unit is a fixed-size worker pool: a `LocalWorkers` struct with
lifecycle operations (`NewLocalWorkers`, `SetQueue`, `Started`, `Start`,
`Close`), a dispatcher goroutine (`startWorkerServer`) that pulls jobs from
the queue and hands them to workers over an unbuffered channel, and `size`
identical worker goroutines (`worker`) that run each received job and report
completion to the queue.

The embedding below has three layers:
1. a pure state-transition model of the lifecycle methods, with spawn
   counts and cancellation-handle invocations made explicit as data;
2. per-iteration translations of the dispatcher and worker loop bodies;
3. a small-step operational model (`Step`) of the uncancelled concurrent
   execution of one dispatcher plus `W` workers over the synchronous
   handoff channel, with an event trace recording `Run` and `Complete`
   invocations.
-/

namespace Pool

/-- A job as the pool observes it (the `amboy.Job` capability set used by
`local.go`): an opaque identity (`ID()`) and the `Status().Completed` flag.
`Run()` invocations are recorded as trace events rather than stored here. -/
structure Job where
  id : Nat
  completed : Bool
deriving DecidableEq

/-- The `LocalWorkers` struct (local.go lines 20-25).  `Q` is the type of
queue references, `C` the type of cancellation handles; the Go `nil`
interface/function values are `none`. -/
structure LocalWorkers (Q C : Type) where
  size : Int
  started : Bool
  queue : Option Q
  canceler : Option C
deriving DecidableEq

/-- `NewLocalWorkers` (local.go lines 30-42): stores the queue and size,
then clamps a non-positive size to 1.  The pool starts unstarted with no
cancellation handle (Go zero values). -/
def NewLocalWorkers {Q C : Type} (numWorkers : Int) (q : Option Q) :
    LocalWorkers Q C :=
  let r : LocalWorkers Q C :=
    { size := numWorkers, started := false, queue := q, canceler := none }
  if r.size ≤ 0 then { r with size := 1 } else r

/-- `LocalWorkers.SetQueue` (local.go lines 47-54).  Returns the error (if
any) together with the resulting receiver state. -/
def SetQueue {Q C : Type} (r : LocalWorkers Q C) (q : Option Q) :
    Option String × LocalWorkers Q C :=
  if r.started then
    (some "cannot add new queue after starting a runner", r)
  else
    (none, { r with queue := q })

/-- `LocalWorkers.Started` (local.go lines 58-60). -/
def Started {Q C : Type} (r : LocalWorkers Q C) : Bool :=
  r.started

/-- Result of `LocalWorkers.Start`: the returned error, the resulting
receiver state, and how many dispatcher loops (`startWorkerServer`
goroutines) and worker loops (`worker` goroutines) the call spawned. -/
structure StartResult (Q C : Type) where
  err : Option String
  pool : LocalWorkers Q C
  dispatchersSpawned : Nat
  workersSpawned : Nat
deriving DecidableEq

/-- `LocalWorkers.Start` (local.go lines 104-128).  `cancel` is the child
cancellation handle produced by `context.WithCancel(ctx)`.  If already
started it returns `nil` with no state change and spawns nothing; with no
queue bound it returns the error with no state change; otherwise it stores
the canceler, spawns one dispatcher, marks started, and spawns one worker
per loop iteration `w = 1..size` (`Int.toNat size` iterations). -/
def Start {Q C : Type} (r : LocalWorkers Q C) (cancel : C) : StartResult Q C :=
  if r.started then
    ⟨none, r, 0, 0⟩
  else
    match r.queue with
    | none => ⟨some "runner must have an embedded queue", r, 0, 0⟩
    | some _ =>
        ⟨none, { r with canceler := some cancel, started := true }, 1,
          r.size.toNat⟩

/-- `LocalWorkers.Close` (local.go lines 131-135): if a canceler is stored,
invoke it.  The first component lists the cancellation-handle invocations
this call performs; the second is the resulting receiver state (no field is
assigned by `Close`). -/
def Close {Q C : Type} (r : LocalWorkers Q C) : List C × LocalWorkers Q C :=
  match r.canceler with
  | some c => ([c], r)
  | none => ([], r)

/-- Outcome of one iteration of the dispatcher loop. -/
inductive DispatchOutcome where
  | exit
  | retry
  | forward (j : Job)
deriving DecidableEq

/-- One iteration of the dispatcher loop body in `startWorkerServer`
(local.go lines 66-83).  `ctxDone` is whether the `<-ctx.Done()` select case
is ready; `next` is the value returned by `q.Next(ctx)` in the default
branch, with `none` standing for a nil job.  A nil job means continue
(retry); a job whose status reports completed is logged and skipped
(retry); otherwise the job is forwarded to the handoff channel. -/
def startWorkerServerIteration (ctxDone : Bool) (next : Option Job) :
    DispatchOutcome :=
  if ctxDone then
    DispatchOutcome.exit
  else
    match next with
    | none => DispatchOutcome.retry
    | some job =>
        if job.completed then DispatchOutcome.retry
        else DispatchOutcome.forward job

/-- The event a worker iteration wakes up on: the `<-ctx.Done()` case or a
job received from the shared `jobs` channel. -/
inductive WorkerSignal where
  | cancelled
  | job (j : Job)
deriving DecidableEq

/-- An observable call a worker makes: `job.Run()` or `q.Complete(ctx, job)`
(`C` is the type of cancellation tokens, recording which `ctx` was passed). -/
inductive WorkerEffect (C : Type) where
  | runJob (j : Job)
  | completeJob (ctx : C) (j : Job)
deriving DecidableEq

/-- Outcome of one iteration of the worker loop: exit permanently, or
perform the listed effects in order and loop again. -/
inductive WorkerOutcome (C : Type) where
  | exit
  | continueLoop (effects : List (WorkerEffect C))
deriving DecidableEq

/-- One iteration of the `worker` loop body (local.go lines 91-99): on
cancellation, return; on receiving `job`, call `job.Run()` then
`q.Complete(ctx, job)` with the same context, then loop. -/
def workerIteration {C : Type} (ctx : C) (sig : WorkerSignal) :
    WorkerOutcome C :=
  match sig with
  | WorkerSignal.cancelled => WorkerOutcome.exit
  | WorkerSignal.job j =>
      WorkerOutcome.continueLoop
        [WorkerEffect.runJob j, WorkerEffect.completeJob ctx j]

/-! ### Operational model of the running pool

`Step` models the uncancelled concurrent execution of one dispatcher
(`startWorkerServer`) and `W` workers (`worker`) sharing the synchronous
handoff channel, against a queue pre-loaded with a list of jobs whose
`Next` yields them in order (queue collaborator behaviour per the spec's
capability set).  The trace records every `Run` and `Complete` invocation. -/

/-- A trace event: a `job.Run()` invocation or a `q.Complete(ctx, job)`
invocation (the shared context is the same everywhere, so it is omitted). -/
inductive Event where
  | runJob (j : Job)
  | completeJob (j : Job)
deriving DecidableEq

/-- The observable state of one worker goroutine: blocked on the select
(`idle`), received a job from the channel but not yet past `job.Run()`
(`received`), or past `job.Run()` but not yet past `q.Complete` (`ran`). -/
inductive WorkerState where
  | idle
  | received (j : Job)
  | ran (j : Job)
deriving DecidableEq

/-- Global state of the running pool: jobs the queue has still to yield,
the job the dispatcher is currently offering on the unbuffered channel
(`none` when it is back at the top of its loop), the worker goroutines, and
the event trace so far. -/
structure SysState where
  pending : List Job
  disp : Option Job
  workers : List WorkerState
  trace : List Event
deriving DecidableEq

/-- Interleaved small-step semantics of the dispatcher and worker loops
(local.go lines 62-100), with cancellation never signalled:
* `skipCompleted`: `q.Next` yields a job whose status reports completed;
  the dispatcher logs and retries without forwarding (lines 76-80);
* `forward`: `q.Next` yields a fresh job and the dispatcher offers it on
  the unbuffered channel (`output <- job`, line 82);
* `handoff`: an idle worker receives the offered job (`job := <-jobs`,
  line 95), unblocking the dispatcher;
* `runStep`: a worker finishes `job.Run()` (line 96);
* `completeStep`: a worker finishes `q.Complete(ctx, job)` (line 97) and
  returns to its select. -/
inductive Step : SysState → SysState → Prop where
  | skipCompleted {j : Job} {rest : List Job} {ws : List WorkerState}
      {tr : List Event} (hc : j.completed = true) :
      Step ⟨j :: rest, none, ws, tr⟩ ⟨rest, none, ws, tr⟩
  | forward {j : Job} {rest : List Job} {ws : List WorkerState}
      {tr : List Event} (hc : j.completed = false) :
      Step ⟨j :: rest, none, ws, tr⟩ ⟨rest, some j, ws, tr⟩
  | handoff {p : List Job} {j : Job} {w₁ w₂ : List WorkerState}
      {tr : List Event} :
      Step ⟨p, some j, w₁ ++ WorkerState.idle :: w₂, tr⟩
        ⟨p, none, w₁ ++ WorkerState.received j :: w₂, tr⟩
  | runStep {p : List Job} {d : Option Job} {j : Job}
      {w₁ w₂ : List WorkerState} {tr : List Event} :
      Step ⟨p, d, w₁ ++ WorkerState.received j :: w₂, tr⟩
        ⟨p, d, w₁ ++ WorkerState.ran j :: w₂, tr ++ [Event.runJob j]⟩
  | completeStep {p : List Job} {d : Option Job} {j : Job}
      {w₁ w₂ : List WorkerState} {tr : List Event} :
      Step ⟨p, d, w₁ ++ WorkerState.ran j :: w₂, tr⟩
        ⟨p, d, w₁ ++ WorkerState.idle :: w₂, tr ++ [Event.completeJob j]⟩

/-- Reflexive-transitive closure of `Step`. -/
inductive Reachable (s₀ : SysState) : SysState → Prop where
  | refl : Reachable s₀ s₀
  | tail {s s' : SysState} : Reachable s₀ s → Step s s' → Reachable s₀ s'

/-- Initial state right after `Start`: the queue holds `jobs`, the
dispatcher is at the top of its loop, all `w` workers are idle, and nothing
has run. -/
def initState (jobs : List Job) (w : Nat) : SysState :=
  ⟨jobs, none, List.replicate w WorkerState.idle, []⟩

/-- How many copies of job `j` are still travelling towards a `Run`:
pending in the queue, held by the dispatcher, or received by a worker. -/
def holdCount (j : Job) (s : SysState) : Nat :=
  s.pending.count j + (if s.disp = some j then 1 else 0) +
    s.workers.count (WorkerState.received j)

/-- Workers currently between `Run` and `Complete` for job `j`. -/
def ranCount (j : Job) (s : SysState) : Nat :=
  s.workers.count (WorkerState.ran j)

/-- `Run` invocations on job `j` recorded so far. -/
def runCount (j : Job) (s : SysState) : Nat :=
  s.trace.count (Event.runJob j)

/-- `Complete` invocations for job `j` recorded so far. -/
def completeCount (j : Job) (s : SysState) : Nat :=
  s.trace.count (Event.completeJob j)

/-- Whether an event concerns job `j`. -/
def isEventOf (j : Job) (e : Event) : Bool :=
  e == Event.runJob j || e == Event.completeJob j

/-- The subtrace of events concerning job `j`. -/
def jobEvents (j : Job) (tr : List Event) : List Event :=
  tr.filter (isEventOf j)

/-- Invariant of every reachable state, for every job `j`:
1. a fresh (non-completed) job is conserved: its copies in transit plus its
   recorded `Run`s equal its multiplicity in the initial queue;
2. an already-completed job is never held by the dispatcher, never held by
   a worker, and never has `Run` or `Complete` invoked;
3. every recorded `Complete` is matched by a recorded `Run`, the difference
   being the workers currently between the two calls;
4. a fresh job occurring at most once initially has as its subtrace `[]`,
   `[Run]`, or `[Run, Complete]` — a `Run` is never repeated and a
   `Complete` only ever follows its `Run`. -/
def Inv (init : List Job) (s : SysState) : Prop :=
  ∀ j : Job,
    (j.completed = false → holdCount j s + runCount j s = init.count j) ∧
    (j.completed = true →
      s.disp ≠ some j ∧ s.workers.count (WorkerState.received j) = 0 ∧
        ranCount j s = 0 ∧ runCount j s = 0 ∧ completeCount j s = 0) ∧
    completeCount j s + ranCount j s = runCount j s ∧
    (j.completed = false → init.count j ≤ 1 →
      jobEvents j s.trace = [] ∨ jobEvents j s.trace = [Event.runJob j] ∨
        jobEvents j s.trace = [Event.runJob j, Event.completeJob j])


lemma jobEvents_append (j : Job) (tr tr' : List Event) :
    jobEvents j (tr ++ tr') = jobEvents j tr ++ jobEvents j tr' :=
  List.filter_append tr tr'

lemma jobEvents_run_singleton (j j' : Job) :
    jobEvents j [Event.runJob j'] =
      if j' = j then [Event.runJob j'] else [] := by
  by_cases h : j' = j <;> simp [jobEvents, isEventOf, h]

lemma jobEvents_complete_singleton (j j' : Job) :
    jobEvents j [Event.completeJob j'] =
      if j' = j then [Event.completeJob j'] else [] := by
  by_cases h : j' = j <;> simp [jobEvents, isEventOf, h]

lemma count_jobEvents_run (j : Job) (tr : List Event) :
    (jobEvents j tr).count (Event.runJob j) = tr.count (Event.runJob j) :=
  List.count_filter (by simp [isEventOf])

lemma count_jobEvents_complete (j : Job) (tr : List Event) :
    (jobEvents j tr).count (Event.completeJob j) = tr.count (Event.completeJob j) :=
  List.count_filter (by simp [isEventOf])

lemma Inv_init (init : List Job) (w : Nat) : Inv init (initState init w) := by
  intro j
  refine ⟨?_, ?_, ?_, ?_⟩
  · intro hjf
    simp [holdCount, runCount, initState, List.count_replicate]
  · intro hjt
    simp [ranCount, runCount, completeCount, initState, List.count_replicate]
  · simp [ranCount, runCount, completeCount, initState, List.count_replicate]
  · intro hjf hcnt
    left
    simp [jobEvents, initState]

lemma Inv_step {init : List Job} {s s' : SysState} (hs : Inv init s)
    (hstep : Step s s') : Inv init s' := by
  cases hstep with
  | @skipCompleted j' rest ws tr hc =>
      intro j
      obtain ⟨h1, h2, h3, h4⟩ := hs j
      refine ⟨?_, ?_, h3, h4⟩
      · intro hjf
        have hne : j' ≠ j := by
          intro h; rw [h] at hc; rw [hc] at hjf; cases hjf
        have := h1 hjf
        simp [holdCount, runCount, List.count_cons, hne] at this ⊢
        omega
      · intro hjt
        exact h2 hjt
  | @forward j' rest ws tr hc =>
      intro j
      obtain ⟨h1, h2, h3, h4⟩ := hs j
      refine ⟨?_, ?_, h3, h4⟩
      · intro hjf
        have := h1 hjf
        by_cases hne : j' = j
        · subst hne
          simp [holdCount, runCount, List.count_cons] at this ⊢
          omega
        · simp [holdCount, runCount, List.count_cons, hne] at this ⊢
          omega
      · intro hjt
        obtain ⟨hd, hrecv, hran, hrun, hcomp⟩ := h2 hjt
        have hne : j' ≠ j := by
          intro h; rw [h] at hc; rw [hjt] at hc; cases hc
        exact ⟨by simp [hne], hrecv, hran, hrun, hcomp⟩
  | @handoff p j' w₁ w₂ tr =>
      intro j
      obtain ⟨h1, h2, h3, h4⟩ := hs j
      refine ⟨?_, ?_, ?_, h4⟩
      · intro hjf
        have := h1 hjf
        by_cases hne : j' = j
        · subst hne
          simp [holdCount, runCount, List.count_append, List.count_cons]
            at this ⊢
          omega
        · simp [holdCount, runCount, List.count_append, List.count_cons, hne]
            at this ⊢
          omega
      · intro hjt
        obtain ⟨hd, hrecv, hran, hrun, hcomp⟩ := h2 hjt
        have hne : j' ≠ j := by
          intro h; subst h; exact hd rfl
        refine ⟨by simp, ?_, ?_, hrun, hcomp⟩
        · simp [List.count_append, List.count_cons, hne] at hrecv ⊢
          omega
        · simp [ranCount, List.count_append, List.count_cons] at hran ⊢
          omega
      · simp [ranCount, runCount, completeCount, List.count_append,
          List.count_cons] at h3 ⊢
        omega
  | @runStep p d j' w₁ w₂ tr =>
      intro j
      obtain ⟨h1, h2, h3, h4⟩ := hs j
      refine ⟨?_, ?_, ?_, ?_⟩
      · intro hjf
        have := h1 hjf
        by_cases hne : j' = j
        · subst hne
          simp [holdCount, runCount, List.count_append, List.count_cons]
            at this ⊢
          omega
        · simp [holdCount, runCount, List.count_append, List.count_cons, hne]
            at this ⊢
          omega
      · intro hjt
        obtain ⟨hd, hrecv, hran, hrun, hcomp⟩ := h2 hjt
        have hne : j' ≠ j := by
          intro h; subst h
          simp [List.count_append, List.count_cons] at hrecv
        refine ⟨hd, ?_, ?_, ?_, ?_⟩
        · simp [List.count_append, List.count_cons, hne] at hrecv ⊢
          omega
        · simp [ranCount, List.count_append, List.count_cons, hne]
            at hran ⊢
          omega
        · simp [runCount, List.count_append, List.count_cons, hne]
            at hrun ⊢
          omega
        · simp [completeCount, List.count_append, List.count_cons, hne]
            at hcomp ⊢
          omega
      · by_cases hne : j' = j
        · subst hne
          simp [ranCount, runCount, completeCount, List.count_append,
            List.count_cons] at h3 ⊢
          omega
        · simp [ranCount, runCount, completeCount, List.count_append,
            List.count_cons, hne] at h3 ⊢
          omega
      · intro hjf hcnt
        by_cases hne : j' = j
        · subst hne
          have hhold := h1 hjf
          have hrun0 : tr.count (Event.runJob j') = 0 := by
            simp [holdCount, runCount, List.count_append, List.count_cons]
              at hhold
            omega
          have hje : jobEvents j' tr = [] := by
            rcases h4 hjf hcnt with h | h | h
            · exact h
            · exfalso
              have := count_jobEvents_run j' tr
              rw [h] at this
              simp [hrun0] at this
            · exfalso
              have := count_jobEvents_run j' tr
              rw [h] at this
              simp [hrun0, List.count_cons] at this
          right; left
          rw [jobEvents_append, hje, jobEvents_run_singleton]
          simp
        · rcases h4 hjf hcnt with h | h | h
          · left
            rw [jobEvents_append, h, jobEvents_run_singleton]
            simp [hne]
          · right; left
            rw [jobEvents_append, h, jobEvents_run_singleton]
            simp [hne]
          · right; right
            rw [jobEvents_append, h, jobEvents_run_singleton]
            simp [hne]
  | @completeStep p d j' w₁ w₂ tr =>
      intro j
      obtain ⟨h1, h2, h3, h4⟩ := hs j
      refine ⟨?_, ?_, ?_, ?_⟩
      · intro hjf
        have := h1 hjf
        by_cases hne : j' = j
        · subst hne
          simp [holdCount, runCount, List.count_append, List.count_cons]
            at this ⊢
          omega
        · simp [holdCount, runCount, List.count_append, List.count_cons, hne]
            at this ⊢
          omega
      · intro hjt
        obtain ⟨hd, hrecv, hran, hrun, hcomp⟩ := h2 hjt
        have hne : j' ≠ j := by
          intro h; subst h
          simp [ranCount, List.count_append, List.count_cons] at hran
        refine ⟨hd, ?_, ?_, ?_, ?_⟩
        · simp [List.count_append, List.count_cons, hne] at hrecv ⊢
          omega
        · simp [ranCount, List.count_append, List.count_cons, hne]
            at hran ⊢
          omega
        · simp [runCount, List.count_append, List.count_cons, hne]
            at hrun ⊢
          omega
        · simp [completeCount, List.count_append, List.count_cons, hne]
            at hcomp ⊢
          omega
      · by_cases hne : j' = j
        · subst hne
          simp [ranCount, runCount, completeCount, List.count_append,
            List.count_cons] at h3 ⊢
          omega
        · simp [ranCount, runCount, completeCount, List.count_append,
            List.count_cons, hne] at h3 ⊢
          omega
      · intro hjf hcnt
        by_cases hne : j' = j
        · subst hne
          have hhold := h1 hjf
          have hcnts : tr.count (Event.runJob j') = 1 ∧
              tr.count (Event.completeJob j') = 0 := by
            simp [holdCount, runCount, ranCount, completeCount,
              List.count_append, List.count_cons] at hhold h3
            omega
          have hje : jobEvents j' tr = [Event.runJob j'] := by
            rcases h4 hjf hcnt with h | h | h
            · exfalso
              have := count_jobEvents_run j' tr
              rw [h] at this
              simp [hcnts.1] at this
            · exact h
            · exfalso
              have := count_jobEvents_complete j' tr
              rw [h] at this
              simp [hcnts.2, List.count_cons] at this
          right; right
          rw [jobEvents_append, hje, jobEvents_complete_singleton]
          simp
        · rcases h4 hjf hcnt with h | h | h
          · left
            rw [jobEvents_append, h, jobEvents_complete_singleton]
            simp [hne]
          · right; left
            rw [jobEvents_append, h, jobEvents_complete_singleton]
            simp [hne]
          · right; right
            rw [jobEvents_append, h, jobEvents_complete_singleton]
            simp [hne]

lemma Inv_reachable {init : List Job} {w : Nat} {s : SysState}
    (h : Reachable (initState init w) s) : Inv init s := by
  induction h with
  | refl => exact Inv_init init w
  | tail _ hstep ih => exact Inv_step ih hstep

lemma count_idle_workers {ws : List WorkerState}
    (h : ∀ x ∈ ws, x = WorkerState.idle) {y : WorkerState}
    (hy : y ≠ WorkerState.idle) : ws.count y = 0 := by
  rw [List.count_eq_zero]
  intro hmem
  exact hy (h y hmem)

/-- C1: for a queue pre-loaded with distinct jobs and a pool of `W` workers
(`W` smaller than the number of jobs), every dispatched job is executed
exactly once: in any reachable quiescent state (queue drained, dispatcher
back at the top of its loop, all workers idle) each fresh pre-loaded job
has exactly one recorded `Run`, exactly one recorded `Complete`, and its
subtrace is `Run` followed by `Complete` — regardless of `W`. -/
theorem C1_every_job_executed_exactly_once
    (init : List Job) (W : Nat)
    (hnodup : init.Nodup) (_hWpos : 0 < W) (_hWM : W < init.length)
    (s : SysState) (hr : Reachable (initState init W) s)
    (hp : s.pending = []) (hd : s.disp = none)
    (hw : ∀ x ∈ s.workers, x = WorkerState.idle)
    (j : Job) (hj : j ∈ init) (hjf : j.completed = false) :
    s.trace.count (Event.runJob j) = 1 ∧
    s.trace.count (Event.completeJob j) = 1 ∧
    jobEvents j s.trace = [Event.runJob j, Event.completeJob j] := by
  obtain ⟨h1, h2, h3, h4⟩ := Inv_reachable hr j
  have hone : init.count j = 1 := List.count_eq_one_of_mem hnodup hj
  have hrecv0 : s.workers.count (WorkerState.received j) = 0 :=
    count_idle_workers hw (by simp)
  have hran0 : s.workers.count (WorkerState.ran j) = 0 :=
    count_idle_workers hw (by simp)
  have hhold := h1 hjf
  have hrun1 : s.trace.count (Event.runJob j) = 1 := by
    simp [holdCount, runCount, hp, hd, hrecv0, hone] at hhold
    exact hhold
  have hcomp1 : s.trace.count (Event.completeJob j) = 1 := by
    simp [ranCount, runCount, completeCount, hran0, hrun1] at h3
    exact h3
  refine ⟨hrun1, hcomp1, ?_⟩
  rcases h4 hjf (le_of_eq hone) with h | h | h
  · exfalso
    have := count_jobEvents_run j s.trace
    rw [h] at this
    simp [hrun1] at this
  · exfalso
    have := count_jobEvents_complete j s.trace
    rw [h] at this
    simp [hcomp1] at this
  · exact h

/-- Witness for C1: the two-job, one-worker execution run to completion. -/
theorem C1_witness :
    List.count (Event.runJob ⟨0, false⟩)
        [Event.runJob ⟨0, false⟩, Event.completeJob ⟨0, false⟩,
          Event.runJob ⟨1, false⟩, Event.completeJob ⟨1, false⟩] = 1 ∧
    List.count (Event.completeJob ⟨0, false⟩)
        [Event.runJob ⟨0, false⟩, Event.completeJob ⟨0, false⟩,
          Event.runJob ⟨1, false⟩, Event.completeJob ⟨1, false⟩] = 1 ∧
    jobEvents ⟨0, false⟩
        [Event.runJob ⟨0, false⟩, Event.completeJob ⟨0, false⟩,
          Event.runJob ⟨1, false⟩, Event.completeJob ⟨1, false⟩] =
      [Event.runJob ⟨0, false⟩, Event.completeJob ⟨0, false⟩] := by
  have s1 : Step ⟨[⟨0, false⟩, ⟨1, false⟩], none, [WorkerState.idle], []⟩
      ⟨[⟨1, false⟩], some ⟨0, false⟩, [WorkerState.idle], []⟩ :=
    Step.forward rfl
  have s2 : Step ⟨[⟨1, false⟩], some ⟨0, false⟩, [WorkerState.idle], []⟩
      ⟨[⟨1, false⟩], none, [WorkerState.received ⟨0, false⟩], []⟩ :=
    @Step.handoff [⟨1, false⟩] ⟨0, false⟩ [] [] []
  have s3 : Step ⟨[⟨1, false⟩], none, [WorkerState.received ⟨0, false⟩], []⟩
      ⟨[⟨1, false⟩], none, [WorkerState.ran ⟨0, false⟩],
        [Event.runJob ⟨0, false⟩]⟩ :=
    @Step.runStep [⟨1, false⟩] none ⟨0, false⟩ [] [] []
  have s4 : Step ⟨[⟨1, false⟩], none, [WorkerState.ran ⟨0, false⟩],
        [Event.runJob ⟨0, false⟩]⟩
      ⟨[⟨1, false⟩], none, [WorkerState.idle],
        [Event.runJob ⟨0, false⟩, Event.completeJob ⟨0, false⟩]⟩ :=
    @Step.completeStep [⟨1, false⟩] none ⟨0, false⟩ [] []
      [Event.runJob ⟨0, false⟩]
  have s5 : Step ⟨[⟨1, false⟩], none, [WorkerState.idle],
        [Event.runJob ⟨0, false⟩, Event.completeJob ⟨0, false⟩]⟩
      ⟨[], some ⟨1, false⟩, [WorkerState.idle],
        [Event.runJob ⟨0, false⟩, Event.completeJob ⟨0, false⟩]⟩ :=
    Step.forward rfl
  have s6 : Step ⟨[], some ⟨1, false⟩, [WorkerState.idle],
        [Event.runJob ⟨0, false⟩, Event.completeJob ⟨0, false⟩]⟩
      ⟨[], none, [WorkerState.received ⟨1, false⟩],
        [Event.runJob ⟨0, false⟩, Event.completeJob ⟨0, false⟩]⟩ :=
    @Step.handoff [] ⟨1, false⟩ [] []
      [Event.runJob ⟨0, false⟩, Event.completeJob ⟨0, false⟩]
  have s7 : Step ⟨[], none, [WorkerState.received ⟨1, false⟩],
        [Event.runJob ⟨0, false⟩, Event.completeJob ⟨0, false⟩]⟩
      ⟨[], none, [WorkerState.ran ⟨1, false⟩],
        [Event.runJob ⟨0, false⟩, Event.completeJob ⟨0, false⟩,
          Event.runJob ⟨1, false⟩]⟩ :=
    @Step.runStep [] none ⟨1, false⟩ [] []
      [Event.runJob ⟨0, false⟩, Event.completeJob ⟨0, false⟩]
  have s8 : Step ⟨[], none, [WorkerState.ran ⟨1, false⟩],
        [Event.runJob ⟨0, false⟩, Event.completeJob ⟨0, false⟩,
          Event.runJob ⟨1, false⟩]⟩
      ⟨[], none, [WorkerState.idle],
        [Event.runJob ⟨0, false⟩, Event.completeJob ⟨0, false⟩,
          Event.runJob ⟨1, false⟩, Event.completeJob ⟨1, false⟩]⟩ :=
    @Step.completeStep [] none ⟨1, false⟩ [] []
      [Event.runJob ⟨0, false⟩, Event.completeJob ⟨0, false⟩,
        Event.runJob ⟨1, false⟩]
  have hr : Reachable (initState [⟨0, false⟩, ⟨1, false⟩] 1)
      ⟨[], none, [WorkerState.idle],
        [Event.runJob ⟨0, false⟩, Event.completeJob ⟨0, false⟩,
          Event.runJob ⟨1, false⟩, Event.completeJob ⟨1, false⟩]⟩ :=
    Reachable.tail (Reachable.tail (Reachable.tail (Reachable.tail
      (Reachable.tail (Reachable.tail (Reachable.tail (Reachable.tail
        Reachable.refl s1) s2) s3) s4) s5) s6) s7) s8
  exact C1_every_job_executed_exactly_once [⟨0, false⟩, ⟨1, false⟩] 1
    (by decide) (by decide) (by decide) _ hr rfl rfl (by decide)
    ⟨0, false⟩ (by decide) rfl

/-- C2: a job yielded by `Next` whose status already reports completed is
skipped with a retry by the dispatcher iteration, never forwarded to the
handoff channel, and — in every reachable state of the running pool — is
never offered by the dispatcher, never held by a worker, and never has
`Run` invoked. -/
theorem C2_completed_job_never_forwarded_or_run (j : Job)
    (hjc : j.completed = true) :
    startWorkerServerIteration false (some j) = DispatchOutcome.retry ∧
    (∀ jb : Job,
      startWorkerServerIteration false (some j) ≠ DispatchOutcome.forward jb) ∧
    (∀ (init : List Job) (W : Nat) (s : SysState),
      Reachable (initState init W) s →
      s.disp ≠ some j ∧ s.workers.count (WorkerState.received j) = 0 ∧
        s.trace.count (Event.runJob j) = 0) := by
  refine ⟨by simp [startWorkerServerIteration, hjc], ?_, ?_⟩
  · intro jb
    simp [startWorkerServerIteration, hjc]
  · intro init W s hr
    obtain ⟨h1, h2, h3, h4⟩ := Inv_reachable hr j
    obtain ⟨hd, hrecv, hran, hrun, hcomp⟩ := h2 hjc
    exact ⟨hd, hrecv, hrun⟩

/-- Witness for C2 at the completed job `⟨5, true⟩`. -/
theorem C2_witness :
    startWorkerServerIteration false (some ⟨5, true⟩) = DispatchOutcome.retry ∧
    (initState [⟨5, true⟩] 1).disp ≠ some ⟨5, true⟩ ∧
    (initState [⟨5, true⟩] 1).trace.count (Event.runJob ⟨5, true⟩) = 0 := by
  obtain ⟨ha, _, hc⟩ := C2_completed_job_never_forwarded_or_run ⟨5, true⟩ rfl
  obtain ⟨hd, _, hrun⟩ := hc [⟨5, true⟩] 1 _ Reachable.refl
  exact ⟨ha, hd, hrun⟩

/-- C7: a worker-loop iteration either exits permanently on cancellation
or, on receiving a job, invokes the job's `Run` and then exactly one
`Complete` with the same cancellation token and that job, in that order,
touching no other job, and then loops. -/
theorem C7_worker_runs_then_completes {C : Type} (ctx : C) :
    workerIteration ctx WorkerSignal.cancelled = WorkerOutcome.exit ∧
    ∀ j : Job, workerIteration ctx (WorkerSignal.job j) =
      WorkerOutcome.continueLoop
        [WorkerEffect.runJob j, WorkerEffect.completeJob ctx j] :=
  ⟨rfl, fun _ => rfl⟩

/-- C9: a dispatcher iteration in which `Next` yields nothing (a nil job)
forwards nothing to the handoff channel and immediately retries. -/
theorem C9_empty_queue_immediate_retry :
    startWorkerServerIteration false none = DispatchOutcome.retry ∧
    ∀ j : Job,
      startWorkerServerIteration false none ≠ DispatchOutcome.forward j := by
  refine ⟨rfl, ?_⟩
  intro j
  simp [startWorkerServerIteration]

/-- A successful `Start` leaves the pool marked started. -/
lemma start_ok_started {Q C : Type} {r : LocalWorkers Q C} {c : C}
    (h : (Start r c).err = none) : (Start r c).pool.started = true := by
  by_cases hs : r.started
  · simp [Start, hs]
  · cases hq : r.queue with
    | none => simp [Start, hs, hq] at h
    | some x => simp [Start, hs, hq]

/-- C3: `Start` on a pool with no queue bound returns the "no queue bound"
error, does not mark the pool started, stores no cancellation handle
(state unchanged), and spawns no dispatcher or worker loop. -/
theorem C3_start_without_queue_fails {Q C : Type} (r : LocalWorkers Q C)
    (c : C) (hq : r.queue = none) (hs : r.started = false) :
    (Start r c).err = some "runner must have an embedded queue" ∧
    (Start r c).pool = r ∧
    (Start r c).pool.started = false ∧
    (Start r c).pool.canceler = r.canceler ∧
    (Start r c).dispatchersSpawned = 0 ∧
    (Start r c).workersSpawned = 0 := by
  simp [Start, hs, hq]

/-- Witness for C3 on a pool constructed with a nil queue. -/
theorem C3_witness :
    (Start (NewLocalWorkers (Q := Nat) (C := Nat) 2 none) 0).err =
      some "runner must have an embedded queue" ∧
    (Start (NewLocalWorkers (Q := Nat) (C := Nat) 2 none) 0).pool =
      NewLocalWorkers (Q := Nat) (C := Nat) 2 none ∧
    (Start (NewLocalWorkers (Q := Nat) (C := Nat) 2 none) 0).pool.started =
      false := by
  have h := C3_start_without_queue_fails
    (NewLocalWorkers (Q := Nat) (C := Nat) 2 none) 0 rfl rfl
  exact ⟨h.1, h.2.1, h.2.2.1⟩

/-- C4: `SetQueue` after a successful `Start` (equivalently, on any started
pool) returns the "already started" error and leaves the state — in
particular the bound queue — unchanged; on a pool that has not started it
always succeeds and rebinds the queue, including overwriting a previous
binding. -/
theorem C4_setQueue_guard {Q C : Type} (r : LocalWorkers Q C) (c : C)
    (q q' : Option Q) :
    ((Start r c).err = none →
      (SetQueue (Start r c).pool q).1 =
        some "cannot add new queue after starting a runner" ∧
      (SetQueue (Start r c).pool q).2 = (Start r c).pool) ∧
    (r.started = true →
      (SetQueue r q).1 = some "cannot add new queue after starting a runner" ∧
      (SetQueue r q).2 = r) ∧
    (r.started = false →
      (SetQueue r q).1 = none ∧ (SetQueue r q).2.queue = q ∧
      (SetQueue (SetQueue r q').2 q).1 = none ∧
      (SetQueue (SetQueue r q').2 q).2.queue = q) := by
  refine ⟨?_, ?_, ?_⟩
  · intro h
    have hst := start_ok_started h
    simp [SetQueue, hst]
  · intro h
    simp [SetQueue, h]
  · intro h
    simp [SetQueue, h]

/-- Witness for C4 on a concrete pool, started and unstarted. -/
theorem C4_witness :
    (SetQueue (Start (NewLocalWorkers (Q := Nat) (C := Nat) 1 (some 2)) 0).pool
        (some 9)).1 = some "cannot add new queue after starting a runner" ∧
    (SetQueue (NewLocalWorkers (Q := Nat) (C := Nat) 1 (some 2)) (some 9)).1 =
      none ∧
    (SetQueue (SetQueue (NewLocalWorkers (Q := Nat) (C := Nat) 1 (some 2))
        (some 8)).2 (some 9)).2.queue = some 9 := by
  have h := C4_setQueue_guard (NewLocalWorkers (Q := Nat) (C := Nat) 1 (some 2))
    0 (some 9) (some 8)
  exact ⟨(h.1 rfl).1, (h.2.2 rfl).1, (h.2.2 rfl).2.2.2⟩

/-- C5: `Start` on an already-started pool — in particular any second
`Start` after a successful one — returns success, modifies no pool field,
and spawns no additional dispatcher or worker loops. -/
theorem C5_start_idempotent {Q C : Type} (r : LocalWorkers Q C) (c c' : C) :
    (r.started = true → Start r c = ⟨none, r, 0, 0⟩) ∧
    ((Start r c).err = none →
      Start (Start r c).pool c' = ⟨none, (Start r c).pool, 0, 0⟩) := by
  constructor
  · intro h
    simp [Start, h]
  · intro h
    have hst := start_ok_started h
    generalize hgen : (Start r c).pool = p at hst ⊢
    simp [Start, hst]

/-- Witness for C5: the second `Start` after a successful first one. -/
theorem C5_witness :
    Start (Start (NewLocalWorkers (Q := Nat) (C := Nat) 1 (some 2)) 0).pool 1 =
      ⟨none, (Start (NewLocalWorkers (Q := Nat) (C := Nat) 1 (some 2)) 0).pool,
        0, 0⟩ :=
  (C5_start_idempotent (NewLocalWorkers (Q := Nat) (C := Nat) 1 (some 2)) 0 1).2
    rfl

/-- Counterexample to C8 as stated: on a started pool, each `Close` call
invokes the stored handle again, so two `Close` calls perform two
invocations of the handle produced at `Start` time — not at most one. -/
theorem C8_counterexample :
    ¬ (((Close (Start (NewLocalWorkers (Q := Nat) (C := Nat) 2 (some 0))
          7).pool).1 ++
        (Close (Close (Start (NewLocalWorkers (Q := Nat) (C := Nat) 2 (some 0))
          7).pool).2).1).length ≤ 1) := by
  decide

/-- C8 (amended): `Close` invokes the stored cancellation handle if and
only if one exists — it is a no-op before `Start` and on a never-started
pool — and each `Close` call invokes the handle exactly once, so repeated
`Close` calls repeat the invocation (once per call, not at most once
overall). -/
theorem C8_close_invokes_iff_handle_exists {Q C : Type}
    (r : LocalWorkers Q C) :
    (r.canceler = none → (Close r).1 = []) ∧
    (∀ c : C, r.canceler = some c → (Close r).1 = [c]) ∧
    (∀ c : C, r.canceler = some c → (Close (Close r).2).1 = [c]) ∧
    (∀ (w : Int) (q : Option Q),
      (Close (NewLocalWorkers (Q := Q) (C := C) w q)).1 = []) := by
  refine ⟨?_, ?_, ?_, ?_⟩
  · intro h
    simp [Close, h]
  · intro c h
    simp [Close, h]
  · intro c h
    simp [Close, h]
  · intro w q
    by_cases h : w ≤ 0 <;> simp [NewLocalWorkers, Close, h]

/-- Witness for C8 (amended) on pools with and without a stored handle. -/
theorem C8_witness :
    (Close ({ size := 2, started := true, queue := some 5, canceler := some 3 } : LocalWorkers Nat Nat)).1 = [3] ∧
    (Close ({ size := 2, started := false, queue := none, canceler := none } : LocalWorkers Nat Nat)).1 = [] :=
  ⟨(C8_close_invokes_iff_handle_exists _).2.1 3 rfl,
    (C8_close_invokes_iff_handle_exists _).1 rfl⟩

/-- C10: `Close` modifies no pool field: the state is returned unchanged,
so `Started` still reports the old value, the queue binding and size are
untouched, and on a started pool `SetQueue` still fails with the "already
started" error after `Close`. -/
theorem C10_close_frame {Q C : Type} (r : LocalWorkers Q C) (q : Option Q) :
    (Close r).2 = r ∧
    Started (Close r).2 = Started r ∧
    (Close r).2.size = r.size ∧
    (Close r).2.queue = r.queue ∧
    (r.started = true →
      Started (Close r).2 = true ∧
      (SetQueue (Close r).2 q).1 =
        some "cannot add new queue after starting a runner" ∧
      (SetQueue (Close r).2 q).2 = (Close r).2) := by
  have hcl : (Close r).2 = r := by
    cases hc : r.canceler <;> simp [Close, hc]
  refine ⟨hcl, by rw [hcl], by rw [hcl], by rw [hcl], ?_⟩
  intro h
  rw [hcl]
  exact ⟨by simp [Started, h], by simp [SetQueue, h], by simp [SetQueue, h]⟩

/-- Witness for C10 on a started pool holding a cancellation handle. -/
theorem C10_witness :
    (Close ({ size := 1, started := true, queue := some 4, canceler := some 2 } : LocalWorkers Nat Nat)).2 =
      { size := 1, started := true, queue := some 4, canceler := some 2 } ∧
    Started (Close ({ size := 1, started := true, queue := some 4, canceler := some 2 } : LocalWorkers Nat Nat)).2 = true ∧
    (SetQueue (Close ({ size := 1, started := true, queue := some 4, canceler := some 2 } : LocalWorkers Nat Nat)).2 (some 9)).1 =
      some "cannot add new queue after starting a runner" := by
  have h := C10_close_frame ({ size := 1, started := true, queue := some 4, canceler := some 2 } : LocalWorkers Nat Nat) (some 9)
  exact ⟨h.1, (h.2.2.2.2 rfl).1, (h.2.2.2.2 rfl).2.1⟩

/-- Witness for C7 at token `7` and job `⟨2, false⟩`. -/
theorem C7_witness :
    workerIteration (7 : Nat) (WorkerSignal.job ⟨2, false⟩) =
      WorkerOutcome.continueLoop
        [WorkerEffect.runJob ⟨2, false⟩, WorkerEffect.completeJob 7 ⟨2, false⟩] :=
  (C7_worker_runs_then_completes 7).2 ⟨2, false⟩

/-- Witness for C9: the retry outcome is not a forward of any job. -/
theorem C9_witness :
    startWorkerServerIteration false none ≠ DispatchOutcome.forward ⟨3, false⟩ :=
  C9_empty_queue_immediate_retry.2 ⟨3, false⟩

/-- C6: constructing a pool with worker count `w ≤ 0` yields an effective
size of exactly 1, while `w ≥ 1` is kept as-is; the constructed pool is
unstarted, holds no cancellation handle, and stores `q` as its queue
reference. -/
theorem C6_constructor_clamps_and_initializes {Q C : Type} (w : Int)
    (q : Option Q) :
    (w ≤ 0 → (NewLocalWorkers (C := C) w q).size = 1) ∧
    (1 ≤ w → (NewLocalWorkers (C := C) w q).size = w) ∧
    (NewLocalWorkers (C := C) w q).started = false ∧
    (NewLocalWorkers (C := C) w q).canceler = none ∧
    (NewLocalWorkers (C := C) w q).queue = q := by
  refine ⟨?_, ?_, ?_, ?_, ?_⟩
  · intro hw
    simp [NewLocalWorkers, hw]
  · intro hw
    have h : ¬ (w ≤ 0) := by omega
    simp [NewLocalWorkers, h]
  · by_cases h : w ≤ 0 <;> simp [NewLocalWorkers, h]
  · by_cases h : w ≤ 0 <;> simp [NewLocalWorkers, h]
  · by_cases h : w ≤ 0 <;> simp [NewLocalWorkers, h]

/-- Witness for C6 at worker counts `-2` (clamped) and `3` (kept). -/
theorem C6_witness :
    (NewLocalWorkers (Q := Nat) (C := Nat) (-2) (some 4)).size = 1 ∧
    (NewLocalWorkers (Q := Nat) (C := Nat) 3 (some 4)).size = 3 ∧
    (NewLocalWorkers (Q := Nat) (C := Nat) (-2) (some 4)).started = false ∧
    (NewLocalWorkers (Q := Nat) (C := Nat) (-2) (some 4)).canceler = none ∧
    (NewLocalWorkers (Q := Nat) (C := Nat) (-2) (some 4)).queue = some 4 := by
  obtain ⟨ha, _, hc, hd, he⟩ :=
    C6_constructor_clamps_and_initializes (Q := Nat) (C := Nat) (-2) (some 4)
  obtain ⟨_, hb, _, _, _⟩ :=
    C6_constructor_clamps_and_initializes (Q := Nat) (C := Nat) 3 (some 4)
  exact ⟨ha (by decide), hb (by decide), hc, hd, he⟩

end Pool
